import Mathlib

/-!
Shallow embedding of the window-stacking state manager
(`WindowManagerProvider` in the repository's window-manager module).
Each React `useCallback` operation is translated to a pure state
transition on `ManagerState`; the telemetry calls (Sentry logging,
counters, gauges) return no value the state depends on and are omitted.
-/

set_option maxRecDepth 4000

/-- Modelled from the spec: the `WindowState` record is declared in
`./types`, a file not present in the sources; its fields are taken from
the spec's data model (§3) and match every field the manager's code
reads or writes (`id`, `title`, `icon`, `x`, `y`, `width`, `height`,
`zIndex`, `isFocused`, `isMinimized`, `isMaximized`). -/
structure WindowState where
  id : String
  title : String
  icon : String
  x : Int
  y : Int
  width : Int
  height : Int
  zIndex : Nat
  isFocused : Bool
  isMinimized : Bool
  isMaximized : Bool
deriving Repr, DecidableEq

/-- The argument of `openWindow`: `Omit<WindowState, 'zIndex' | 'isFocused'>`. -/
structure WindowSpec where
  id : String
  title : String
  icon : String
  x : Int
  y : Int
  width : Int
  height : Int
  isMinimized : Bool
  isMaximized : Bool
deriving Repr, DecidableEq

/-- The provider's two `useState` cells: `windows` and `topZIndex`. -/
structure ManagerState where
  windows : List WindowState
  topZIndex : Nat
deriving Repr, DecidableEq

/-- `useState<WindowState[]>([])` and `useState(100)`. -/
def initialState : ManagerState := { windows := [], topZIndex := 100 }

/-- The window object built by `openWindow`'s fresh branch:
`{ ...window, zIndex: newZ, isFocused: true }`. -/
def freshWindow (spec : WindowSpec) (z : Nat) : WindowState :=
  { id := spec.id, title := spec.title, icon := spec.icon,
    x := spec.x, y := spec.y, width := spec.width, height := spec.height,
    zIndex := z, isFocused := true,
    isMinimized := spec.isMinimized, isMaximized := spec.isMaximized }

/-- `openWindow`: computes `newZ = currentZ + 1`, then branches on
`prev.find(w => w.id === window.id)`: restore-from-minimized,
refocus, or append a fresh window; stores `newZ` as the new top. -/
def openWindow (spec : WindowSpec) (s : ManagerState) : ManagerState :=
  { windows :=
      match s.windows.find? (fun w => w.id == spec.id) with
      | some existing =>
        if existing.isMinimized then
          s.windows.map (fun w =>
            if w.id == spec.id then
              { w with isMinimized := false, isFocused := true, zIndex := s.topZIndex + 1 }
            else
              { w with isFocused := false })
        else
          s.windows.map (fun w =>
            if w.id == spec.id then
              { w with isFocused := true, zIndex := s.topZIndex + 1 }
            else
              { w with isFocused := false })
      | none =>
        s.windows.map (fun w => { w with isFocused := false }) ++
          [freshWindow spec (s.topZIndex + 1)],
    topZIndex := s.topZIndex + 1 }

/-- `closeWindow`: `prev.filter(w => w.id !== id)`; `topZIndex` untouched. -/
def closeWindow (id : String) (s : ManagerState) : ManagerState :=
  { s with windows := s.windows.filter (fun w => w.id != id) }

/-- `minimizeWindow`: map setting `isMinimized = true`, `isFocused = false`
on the matching window, others untouched. -/
def minimizeWindow (id : String) (s : ManagerState) : ManagerState :=
  { s with windows := s.windows.map (fun w =>
      if w.id == id then { w with isMinimized := true, isFocused := false } else w) }

/-- `maximizeWindow`: map toggling `isMaximized` on the matching window. -/
def maximizeWindow (id : String) (s : ManagerState) : ManagerState :=
  { s with windows := s.windows.map (fun w =>
      if w.id == id then { w with isMaximized := !w.isMaximized } else w) }

/-- `restoreWindow`: consumes `newZ = currentZ + 1` unconditionally, maps
the matching window to minimized-cleared/focused/`newZ`, unfocuses others. -/
def restoreWindow (id : String) (s : ManagerState) : ManagerState :=
  { windows := s.windows.map (fun w =>
      if w.id == id then
        { w with isMinimized := false, isFocused := true, zIndex := s.topZIndex + 1 }
      else
        { w with isFocused := false }),
    topZIndex := s.topZIndex + 1 }

/-- `focusWindow`: consumes `newZ = currentZ + 1` unconditionally, maps
the matching window to focused/`newZ`, unfocuses others. -/
def focusWindow (id : String) (s : ManagerState) : ManagerState :=
  { windows := s.windows.map (fun w =>
      if w.id == id then
        { w with isFocused := true, zIndex := s.topZIndex + 1 }
      else
        { w with isFocused := false }),
    topZIndex := s.topZIndex + 1 }

/-- `updateWindowPosition`: overwrites `x`, `y` on the matching window. -/
def updateWindowPosition (id : String) (x y : Int) (s : ManagerState) : ManagerState :=
  { s with windows := s.windows.map (fun w =>
      if w.id == id then { w with x := x, y := y } else w) }

/-- `updateWindowSize`: overwrites `width`, `height` on the matching window. -/
def updateWindowSize (id : String) (width height : Int) (s : ManagerState) : ManagerState :=
  { s with windows := s.windows.map (fun w =>
      if w.id == id then { w with width := width, height := height } else w) }

/-- One call to any of the manager's exposed operations. -/
inductive Op where
  | openW (spec : WindowSpec)
  | closeW (id : String)
  | minimizeW (id : String)
  | maximizeW (id : String)
  | restoreW (id : String)
  | focusW (id : String)
  | updatePos (id : String) (x y : Int)
  | updateSize (id : String) (width height : Int)
deriving Repr, DecidableEq

def applyOp : Op → ManagerState → ManagerState
  | .openW spec => openWindow spec
  | .closeW id => closeWindow id
  | .minimizeW id => minimizeWindow id
  | .maximizeW id => maximizeWindow id
  | .restoreW id => restoreWindow id
  | .focusW id => focusWindow id
  | .updatePos id x y => updateWindowPosition id x y
  | .updateSize id w h => updateWindowSize id w h

/-- Run a sequence of operations from the initial state. -/
def run (ops : List Op) : ManagerState :=
  ops.foldl (fun s op => applyOp op s) initialState

/-- Number of windows with `isFocused === true`. -/
def focusedCount (s : ManagerState) : Nat :=
  (s.windows.filter (fun w => w.isFocused)).length

/-- The tracked window ids are pairwise distinct. -/
def idsNodup (s : ManagerState) : Prop :=
  (s.windows.map (fun w => w.id)).Nodup

/-- The fronting operations: open / restore / focus. -/
def isFronting : Op → Bool
  | .openW _ | .restoreW _ | .focusW _ => true
  | _ => false

/-- The id a fronting operation targets. -/
def opTargetId : Op → Option String
  | .openW spec => some spec.id
  | .restoreW id => some id
  | .focusW id => some id
  | _ => none

/-- Joint invariant of every reachable manager state: ids are unique,
every window's `zIndex` is at most `topZIndex`, and at most one window
is focused. -/
def ManagerInv (s : ManagerState) : Prop :=
  idsNodup s ∧ (∀ w ∈ s.windows, w.zIndex ≤ s.topZIndex) ∧ focusedCount s ≤ 1

/-- A concrete open request used to instantiate hypotheses of the claim
theorems at checkable inputs. -/
def specA : WindowSpec :=
  { id := "a", title := "Alpha", icon := "alpha.svg", x := 0, y := 0,
    width := 400, height := 300, isMinimized := false, isMaximized := false }

/-- A second concrete open request with a distinct id. -/
def specB : WindowSpec :=
  { id := "b", title := "Beta", icon := "beta.svg", x := 40, y := 20,
    width := 320, height := 240, isMinimized := false, isMaximized := false }

/-- A third concrete open request reusing id "a" with different
metadata and geometry. -/
def specA2 : WindowSpec :=
  { id := "a", title := "Alpha Two", icon := "alpha2.svg", x := 7, y := 8,
    width := 111, height := 222, isMinimized := false, isMaximized := false }

/-! ### Helper lemmas on lists of windows -/

lemma filterMapLenEq (f : WindowState → WindowState) (p q : WindowState → Bool)
    (h : ∀ w, p (f w) = q w) (l : List WindowState) :
    ((l.map f).filter p).length = (l.filter q).length := by
  induction l with
  | nil => rfl
  | cons a l ih =>
    simp only [List.map_cons, List.filter_cons, h a]
    cases q a <;> simp [ih]

lemma filterMapLenLe (f : WindowState → WindowState) (p : WindowState → Bool)
    (h : ∀ w, p (f w) = true → p w = true) (l : List WindowState) :
    ((l.map f).filter p).length ≤ (l.filter p).length := by
  induction l with
  | nil => exact Nat.le_refl _
  | cons a l ih =>
    simp only [List.map_cons, List.filter_cons]
    cases hfa : p (f a) with
    | true =>
      simp only [hfa, h a hfa, if_true, List.length_cons]
      exact Nat.succ_le_succ ih
    | false =>
      simp only [hfa, Bool.false_eq_true, if_false]
      cases hpa : p a
      · simp only [Bool.false_eq_true, if_false]
        exact ih
      · simp only [if_true, List.length_cons]
        exact Nat.le_trans ih (Nat.le_succ _)

lemma matchingLenLeOne (id : String) (l : List WindowState)
    (h : (l.map (fun w => w.id)).Nodup) :
    (l.filter (fun w => w.id == id)).length ≤ 1 := by
  induction l with
  | nil => simp
  | cons a l ih =>
    rw [List.map_cons, List.nodup_cons] at h
    obtain ⟨ha, hl⟩ := h
    simp only [List.filter_cons]
    cases hca : (a.id == id) with
    | false => exact ih hl
    | true =>
      have haid : a.id = id := beq_iff_eq.mp hca
      have hnil : l.filter (fun w => w.id == id) = [] := by
        refine List.filter_eq_nil_iff.mpr (fun w hw hwid => ?_)
        exact ha (haid ▸ beq_iff_eq.mp hwid ▸ List.mem_map_of_mem (fun w => w.id) hw)
      simp [hnil]

lemma mapIdsEq (f : WindowState → WindowState) (h : ∀ w, (f w).id = w.id)
    (l : List WindowState) :
    (l.map f).map (fun w => w.id) = l.map (fun w => w.id) := by
  rw [List.map_map]
  exact List.map_congr_left (fun a _ => h a)

/-! ### The manager invariant -/

lemma inv_initial : ManagerInv initialState := by
  refine ⟨List.nodup_nil, ?_, ?_⟩ <;> simp [initialState, focusedCount]

lemma frontMap_inv (id : String) (g : WindowState → WindowState) (z : Nat)
    (hgid : ∀ w, (g w).id = w.id)
    (hgz : ∀ w, (g w).zIndex = z)
    (hgf : ∀ w, (g w).isFocused = true)
    (s : ManagerState) (h : ManagerInv s) (hz : s.topZIndex ≤ z) :
    ManagerInv (ManagerState.mk (s.windows.map (fun w =>
      if w.id == id then g w else { w with isFocused := false })) z) := by
  obtain ⟨hnd, hle, _⟩ := h
  refine ⟨?_, ?_, ?_⟩
  · show ((s.windows.map (fun w =>
        if w.id == id then g w else { w with isFocused := false })).map
        (fun w => w.id)).Nodup
    rw [mapIdsEq _ (fun w => by cases hc : w.id == id <;> simp [hc, hgid])]
    exact hnd
  · intro w' hw'
    obtain ⟨w, hw, rfl⟩ := List.mem_map.mp hw'
    cases hc : w.id == id <;> simp only [hc, if_true, if_false]
    · exact Nat.le_trans (hle w hw) hz
    · exact Nat.le_of_eq (hgz w)
  · show ((s.windows.map (fun w =>
        if w.id == id then g w else { w with isFocused := false })).filter
        (fun w => w.isFocused)).length ≤ 1
    rw [filterMapLenEq _ _ (fun w => w.id == id)
      (fun w => by cases hc : w.id == id <;> simp [hc, hgf])]
    exact matchingLenLeOne id s.windows hnd

lemma inv_focusWindow (id : String) (s : ManagerState) (h : ManagerInv s) :
    ManagerInv (focusWindow id s) :=
  frontMap_inv id (fun w => { w with isFocused := true, zIndex := s.topZIndex + 1 })
    (s.topZIndex + 1) (fun _ => rfl) (fun _ => rfl) (fun _ => rfl) s h (Nat.le_succ _)

lemma inv_restoreWindow (id : String) (s : ManagerState) (h : ManagerInv s) :
    ManagerInv (restoreWindow id s) :=
  frontMap_inv id
    (fun w => { w with isMinimized := false, isFocused := true, zIndex := s.topZIndex + 1 })
    (s.topZIndex + 1) (fun _ => rfl) (fun _ => rfl) (fun _ => rfl) s h (Nat.le_succ _)

lemma freshAppend_inv (spec : WindowSpec) (s : ManagerState) (h : ManagerInv s)
    (habs : ∀ w ∈ s.windows, (w.id == spec.id) = false) :
    ManagerInv (ManagerState.mk
      (s.windows.map (fun w => { w with isFocused := false }) ++
        [freshWindow spec (s.topZIndex + 1)])
      (s.topZIndex + 1)) := by
  obtain ⟨hnd, hle, _⟩ := h
  refine ⟨?_, ?_, ?_⟩
  · show ((s.windows.map (fun w : WindowState => { w with isFocused := false }) ++
        [freshWindow spec (s.topZIndex + 1)]).map (fun w : WindowState => w.id)).Nodup
    rw [List.map_append,
      mapIdsEq (fun w => { w with isFocused := false }) (fun _ => rfl)]
    refine List.Nodup.append hnd (List.nodup_singleton _) ?_
    intro a ha hb
    obtain ⟨w, hw, rfl⟩ := List.mem_map.mp ha
    rw [List.map_singleton, List.mem_singleton] at hb
    have hwid : w.id = spec.id := hb
    exact absurd (habs w hw) (by simp [hwid])
  · intro w' hw'
    rcases List.mem_append.mp hw' with hmem | hmem
    · obtain ⟨w, hw, rfl⟩ := List.mem_map.mp hmem
      exact Nat.le_trans (hle w hw) (Nat.le_succ _)
    · rw [List.mem_singleton] at hmem
      subst hmem
      exact Nat.le_refl _
  · show ((s.windows.map (fun w : WindowState => { w with isFocused := false }) ++
        [freshWindow spec (s.topZIndex + 1)]).filter
        (fun w : WindowState => w.isFocused)).length ≤ 1
    rw [List.filter_append]
    have hnil : (s.windows.map (fun w : WindowState => { w with isFocused := false })).filter
        (fun w => w.isFocused) = [] := by
      refine List.filter_eq_nil_iff.mpr (fun x hx => ?_)
      obtain ⟨w, _, rfl⟩ := List.mem_map.mp hx
      simp
    rw [hnil]
    simp [freshWindow]

lemma inv_openWindow (spec : WindowSpec) (s : ManagerState) (h : ManagerInv s) :
    ManagerInv (openWindow spec s) := by
  unfold openWindow
  cases hf : s.windows.find? (fun w => w.id == spec.id) with
  | some existing =>
    simp only [hf]
    cases hm : existing.isMinimized with
    | true =>
      simp only [hm, if_true]
      exact frontMap_inv spec.id
        (fun w => { w with isMinimized := false, isFocused := true, zIndex := s.topZIndex + 1 })
        (s.topZIndex + 1) (fun _ => rfl) (fun _ => rfl) (fun _ => rfl) s h (Nat.le_succ _)
    | false =>
      simp only [hm, Bool.false_eq_true, if_false]
      exact frontMap_inv spec.id
        (fun w => { w with isFocused := true, zIndex := s.topZIndex + 1 })
        (s.topZIndex + 1) (fun _ => rfl) (fun _ => rfl) (fun _ => rfl) s h (Nat.le_succ _)
  | none =>
    simp only [hf]
    refine freshAppend_inv spec s h (fun w hw => ?_)
    have := List.find?_eq_none.mp hf w hw
    simpa using this

lemma inv_closeWindow (id : String) (s : ManagerState) (h : ManagerInv s) :
    ManagerInv (closeWindow id s) := by
  obtain ⟨hnd, hle, hfc⟩ := h
  refine ⟨?_, ?_, ?_⟩
  · show ((s.windows.filter (fun w => w.id != id)).map (fun w => w.id)).Nodup
    exact List.Nodup.sublist (List.Sublist.map _ (List.filter_sublist _)) hnd
  · intro w hw
    exact hle w (List.mem_of_mem_filter hw)
  · show ((s.windows.filter (fun w => w.id != id)).filter
        (fun w => w.isFocused)).length ≤ 1
    exact Nat.le_trans
      (List.Sublist.length_le (List.Sublist.filter _ (List.filter_sublist _))) hfc

lemma plainMap_inv (f : WindowState → WindowState)
    (hid : ∀ w, (f w).id = w.id)
    (hz : ∀ w, (f w).zIndex = w.zIndex)
    (hfoc : ∀ w, (f w).isFocused = true → w.isFocused = true)
    (s : ManagerState) (h : ManagerInv s) :
    ManagerInv (ManagerState.mk (s.windows.map f) s.topZIndex) := by
  obtain ⟨hnd, hle, hfc⟩ := h
  refine ⟨?_, ?_, ?_⟩
  · show ((s.windows.map f).map (fun w => w.id)).Nodup
    rw [mapIdsEq f hid]
    exact hnd
  · intro w' hw'
    obtain ⟨w, hw, rfl⟩ := List.mem_map.mp hw'
    exact Nat.le_trans (Nat.le_of_eq (hz w)) (hle w hw)
  · show ((s.windows.map f).filter (fun w => w.isFocused)).length ≤ 1
    exact Nat.le_trans (filterMapLenLe f _ hfoc s.windows) hfc

lemma inv_minimizeWindow (id : String) (s : ManagerState) (h : ManagerInv s) :
    ManagerInv (minimizeWindow id s) :=
  plainMap_inv _
    (fun w => by cases hc : w.id == id <;> simp [hc])
    (fun w => by cases hc : w.id == id <;> simp [hc])
    (fun w => by cases hc : w.id == id <;> simp [hc])
    s h

lemma inv_maximizeWindow (id : String) (s : ManagerState) (h : ManagerInv s) :
    ManagerInv (maximizeWindow id s) :=
  plainMap_inv _
    (fun w => by cases hc : w.id == id <;> simp [hc])
    (fun w => by cases hc : w.id == id <;> simp [hc])
    (fun w => by cases hc : w.id == id <;> simp [hc])
    s h

lemma inv_updateWindowPosition (id : String) (x y : Int) (s : ManagerState)
    (h : ManagerInv s) : ManagerInv (updateWindowPosition id x y s) :=
  plainMap_inv _
    (fun w => by cases hc : w.id == id <;> simp [hc])
    (fun w => by cases hc : w.id == id <;> simp [hc])
    (fun w => by cases hc : w.id == id <;> simp [hc])
    s h

lemma inv_updateWindowSize (id : String) (width height : Int) (s : ManagerState)
    (h : ManagerInv s) : ManagerInv (updateWindowSize id width height s) :=
  plainMap_inv _
    (fun w => by cases hc : w.id == id <;> simp [hc])
    (fun w => by cases hc : w.id == id <;> simp [hc])
    (fun w => by cases hc : w.id == id <;> simp [hc])
    s h

lemma inv_applyOp (op : Op) (s : ManagerState) (h : ManagerInv s) :
    ManagerInv (applyOp op s) := by
  cases op with
  | openW spec => exact inv_openWindow spec s h
  | closeW id => exact inv_closeWindow id s h
  | minimizeW id => exact inv_minimizeWindow id s h
  | maximizeW id => exact inv_maximizeWindow id s h
  | restoreW id => exact inv_restoreWindow id s h
  | focusW id => exact inv_focusWindow id s h
  | updatePos id x y => exact inv_updateWindowPosition id x y s h
  | updateSize id w hgt => exact inv_updateWindowSize id w hgt s h

lemma inv_foldl (ops : List Op) :
    ∀ s : ManagerState, ManagerInv s →
      ManagerInv (ops.foldl (fun s op => applyOp op s) s) := by
  induction ops with
  | nil => intro s h; exact h
  | cons op ops ih => intro s h; exact ih _ (inv_applyOp op s h)

/-- Every state reachable from the initial state satisfies the invariant. -/
lemma inv_run (ops : List Op) : ManagerInv (run ops) :=
  inv_foldl ops initialState inv_initial

lemma frontMap_target_z (id : String) (g : WindowState → WindowState) (z : Nat)
    (hgz : ∀ w, (g w).zIndex = z) (l : List WindowState) :
    ∀ w ∈ l.map (fun w => if w.id == id then g w else { w with isFocused := false }),
      w.id = id → w.zIndex = z := by
  intro w' hw' hid
  obtain ⟨w, hw, rfl⟩ := List.mem_map.mp hw'
  cases hc : w.id == id with
  | true =>
    simp only [hc, if_true]
    exact hgz w
  | false =>
    exfalso
    simp only [hc, Bool.false_eq_true, if_false] at hid
    exact absurd (beq_iff_eq.mpr hid) (by simp [hc])

/-! ### Claim theorems -/

/-- C1: for every sequence of operations starting from the initial state
(empty windows, `topZIndex = 100`), at most one window in the resulting
state has `isFocused === true`. -/
theorem c1_at_most_one_focused (ops : List Op) : focusedCount (run ops) ≤ 1 :=
  (inv_run ops).2.2

/-- C2: on every reachable state, `topZIndex` never decreases under any
operation; every fronting operation (open/restore/focus) stores
`topZIndex + 1` as the new `topZIndex`, this value strictly exceeds the
`zIndex` of every window previously assigned one, and the target window
receives exactly this value. -/
theorem c2_fronting_fresh_zindex (ops : List Op) (op fop : Op)
    (h : isFronting fop = true) :
    (run ops).topZIndex ≤ (applyOp op (run ops)).topZIndex ∧
    (applyOp fop (run ops)).topZIndex = (run ops).topZIndex + 1 ∧
    (∀ w ∈ (run ops).windows, w.zIndex < (run ops).topZIndex + 1) ∧
    (∀ w ∈ (applyOp fop (run ops)).windows, opTargetId fop = some w.id →
      w.zIndex = (run ops).topZIndex + 1) := by
  refine ⟨?_, ?_, ?_, ?_⟩
  · cases op <;> first | exact Nat.le_refl _ | exact Nat.le_succ _
  · cases fop <;> first | rfl | simp [isFronting] at h
  · intro w hw
    exact Nat.lt_succ_of_le ((inv_run ops).2.1 w hw)
  · cases fop with
    | focusW id =>
      intro w hw hid
      refine frontMap_target_z id
        (fun w => { w with isFocused := true, zIndex := (run ops).topZIndex + 1 })
        ((run ops).topZIndex + 1) (fun _ => rfl) (run ops).windows w hw ?_
      exact (Option.some.inj hid).symm
    | restoreW id =>
      intro w hw hid
      refine frontMap_target_z id
        (fun w => { w with isMinimized := false, isFocused := true, zIndex := (run ops).topZIndex + 1 })
        ((run ops).topZIndex + 1) (fun _ => rfl) (run ops).windows w hw ?_
      exact (Option.some.inj hid).symm
    | openW spec =>
      show ∀ w ∈ (openWindow spec (run ops)).windows, some spec.id = some w.id →
        w.zIndex = (run ops).topZIndex + 1
      unfold openWindow
      cases hf : (run ops).windows.find? (fun w => w.id == spec.id) with
      | some existing =>
        cases hm : existing.isMinimized with
        | true =>
          simp only [hf, hm, if_true]
          intro w hw hid
          exact frontMap_target_z spec.id
            (fun w => { w with isMinimized := false, isFocused := true, zIndex := (run ops).topZIndex + 1 })
            ((run ops).topZIndex + 1) (fun _ => rfl) (run ops).windows w hw
            (Option.some.inj hid).symm
        | false =>
          simp only [hf, hm, Bool.false_eq_true, if_false]
          intro w hw hid
          exact frontMap_target_z spec.id
            (fun w => { w with isFocused := true, zIndex := (run ops).topZIndex + 1 })
            ((run ops).topZIndex + 1) (fun _ => rfl) (run ops).windows w hw
            (Option.some.inj hid).symm
      | none =>
        simp only [hf]
        intro w hw hid
        rcases List.mem_append.mp hw with hmem | hmem
        · exfalso
          obtain ⟨w0, hw0, rfl⟩ := List.mem_map.mp hmem
          have hne := List.find?_eq_none.mp hf w0 hw0
          have : w0.id = spec.id := (Option.some.inj hid).symm
          exact hne (beq_iff_eq.mpr this)
        · rw [List.mem_singleton] at hmem
          subst hmem
          rfl
    | closeW id => simp [isFronting] at h
    | minimizeW id => simp [isFronting] at h
    | maximizeW id => simp [isFronting] at h
    | updatePos id x y => simp [isFronting] at h
    | updateSize id width height => simp [isFronting] at h

lemma find?_append_left_none (p : WindowState → Bool) (l₁ l₂ : List WindowState)
    (h : ∀ w ∈ l₁, p w = false) : (l₁ ++ l₂).find? p = l₂.find? p := by
  induction l₁ with
  | nil => rfl
  | cons a l ih =>
    rw [List.cons_append]
    have ha : p a = false := h a (List.mem_cons_self a l)
    cases hfa : p a
    · simp only [List.find?_cons, hfa]
      exact ih (fun w hw => h w (List.mem_cons_of_mem a hw))
    · rw [ha] at hfa
      cases hfa

lemma open_on_absent (spec : WindowSpec) (s : ManagerState)
    (habs : ∀ w ∈ s.windows, (w.id == spec.id) = false) :
    (openWindow spec s).windows =
      s.windows.map (fun w => { w with isFocused := false }) ++
        [freshWindow spec (s.topZIndex + 1)] := by
  unfold openWindow
  have hf : s.windows.find? (fun w => w.id == spec.id) = none :=
    List.find?_eq_none.mpr (fun w hw => by simp [habs w hw])
  simp only [hf]

lemma mapIf_forall2 (id : String) (g : WindowState → WindowState)
    (l : List WindowState) :
    List.Forall₂ (fun w w' => (w.id = id → w' = g w) ∧ (w.id ≠ id → w' = w)) l
      (l.map (fun w => if w.id == id then g w else w)) := by
  induction l with
  | nil => exact List.Forall₂.nil
  | cons a l ih =>
    refine List.Forall₂.cons ⟨?_, ?_⟩ ih
    · intro hid
      simp [hid]
    · intro hid
      simp [beq_eq_false_iff_ne.mpr hid]

lemma mapIf_noop (id : String) (g : WindowState → WindowState)
    (l : List WindowState) (h : ∀ w ∈ l, w.id ≠ id) :
    l.map (fun w => if w.id == id then g w else w) = l := by
  induction l with
  | nil => rfl
  | cons a l ih =>
    rw [List.map_cons, ih (fun w hw => h w (List.mem_cons_of_mem a hw))]
    simp [beq_eq_false_iff_ne.mpr (h a (List.mem_cons_self a l))]

lemma state_eq_of_windows_eq (s : ManagerState) (ws : List WindowState)
    (h : ws = s.windows) : ManagerState.mk ws s.topZIndex = s := by
  cases s with
  | mk ws' z => exact congrArg (fun l => ManagerState.mk l z) h

lemma unfocusedAll_of_absent (id : String) (s : ManagerState)
    (h : ∀ w ∈ s.windows, w.id ≠ id)
    (f : WindowState → WindowState) :
    ∀ w ∈ s.windows.map (fun w => if w.id == id then f w else { w with isFocused := false }),
      w.isFocused = false := by
  intro w' hw'
  obtain ⟨w, hw, rfl⟩ := List.mem_map.mp hw'
  simp [beq_eq_false_iff_ne.mpr (h w hw)]

/-- C3 counterexample: `focusWindow` on an id absent from the state does
not leave `topZIndex` unchanged — already from the initial state (whose
window list is empty, so "a" is absent) the counter is consumed. -/
theorem c3_counterexample :
    initialState.windows = [] ∧
    (focusWindow "a" initialState).topZIndex ≠ initialState.topZIndex :=
  ⟨rfl, by decide⟩

/-- C3 amended: for every state and every id not present in `windows`,
`focusWindow(id)` still increments `topZIndex` by one — the next z-index
value is consumed even when the id matches no window — and every window
ends up unfocused. -/
theorem c3_focus_absent_consumes (id : String) (s : ManagerState)
    (h : ∀ w ∈ s.windows, w.id ≠ id) :
    (focusWindow id s).topZIndex = s.topZIndex + 1 ∧
    ∀ w ∈ (focusWindow id s).windows, w.isFocused = false := by
  refine ⟨rfl, ?_⟩
  exact unfocusedAll_of_absent id s h
    (fun w => { w with isFocused := true, zIndex := s.topZIndex + 1 })

/-- C3 witness at a concrete input. -/
theorem c3_focus_absent_consumes_witness :
    (∀ w ∈ initialState.windows, w.id ≠ "a") ∧
    ((focusWindow "a" initialState).topZIndex = initialState.topZIndex + 1 ∧
     ∀ w ∈ (focusWindow "a" initialState).windows, w.isFocused = false) :=
  ⟨by intro w hw; simp [initialState] at hw,
   c3_focus_absent_consumes "a" initialState
     (by intro w hw; simp [initialState] at hw)⟩

/-- C4: `closeWindow(id)` keeps exactly the windows whose id differs
from `id`, each with all fields (including `isFocused`) unchanged, and
is a no-op on `windows` when the id is absent; `topZIndex` is untouched,
so no window becomes focused as a side effect of closing another. -/
theorem c4_close_removes_only (id : String) (s : ManagerState) :
    (∀ w, w ∈ (closeWindow id s).windows ↔ (w ∈ s.windows ∧ w.id ≠ id)) ∧
    (closeWindow id s).topZIndex = s.topZIndex ∧
    ((∀ w ∈ s.windows, w.id ≠ id) → (closeWindow id s).windows = s.windows) := by
  refine ⟨?_, rfl, ?_⟩
  · intro w
    show w ∈ s.windows.filter (fun w => w.id != id) ↔ _
    rw [List.mem_filter]
    simp [bne_iff_ne]
  · intro h
    show s.windows.filter (fun w => w.id != id) = s.windows
    refine List.filter_eq_self.mpr (fun w hw => ?_)
    simp [bne_iff_ne, h w hw]

/-- C4 witness at a concrete input. -/
theorem c4_close_removes_only_witness :
    (∀ w, w ∈ (closeWindow "a" (run [Op.openW specA, Op.openW specB])).windows ↔
      (w ∈ (run [Op.openW specA, Op.openW specB]).windows ∧ w.id ≠ "a")) ∧
    (closeWindow "a" (run [Op.openW specA, Op.openW specB])).topZIndex =
      (run [Op.openW specA, Op.openW specB]).topZIndex ∧
    ((∀ w ∈ (run [Op.openW specA, Op.openW specB]).windows, w.id ≠ "a") →
      (closeWindow "a" (run [Op.openW specA, Op.openW specB])).windows =
        (run [Op.openW specA, Op.openW specB]).windows) :=
  c4_close_removes_only "a" (run [Op.openW specA, Op.openW specB])

/-- C10: `restoreWindow(id)` on a state whose windows all have a
different id is not a no-op: it still increments `topZIndex` by one and
leaves every window unfocused. -/
theorem c10_restore_absent_consumes (id : String) (s : ManagerState)
    (h : ∀ w ∈ s.windows, w.id ≠ id) :
    (restoreWindow id s).topZIndex = s.topZIndex + 1 ∧
    ∀ w ∈ (restoreWindow id s).windows, w.isFocused = false := by
  refine ⟨rfl, ?_⟩
  exact unfocusedAll_of_absent id s h
    (fun w => { w with isMinimized := false, isFocused := true, zIndex := s.topZIndex + 1 })

/-- C10 witness at a concrete input. -/
theorem c10_restore_absent_consumes_witness :
    (∀ w ∈ (run [Op.openW specA]).windows, w.id ≠ "zz") ∧
    ((restoreWindow "zz" (run [Op.openW specA])).topZIndex =
      (run [Op.openW specA]).topZIndex + 1 ∧
     ∀ w ∈ (restoreWindow "zz" (run [Op.openW specA])).windows, w.isFocused = false) :=
  ⟨by decide, c10_restore_absent_consumes "zz" (run [Op.openW specA]) (by decide)⟩

/-- C2 witness at a concrete input. -/
theorem c2_fronting_fresh_zindex_witness :
    isFronting (Op.focusW "a") = true ∧
    ((run [Op.openW specA]).topZIndex ≤
      (applyOp (Op.closeW "a") (run [Op.openW specA])).topZIndex ∧
     (applyOp (Op.focusW "a") (run [Op.openW specA])).topZIndex =
      (run [Op.openW specA]).topZIndex + 1 ∧
     (∀ w ∈ (run [Op.openW specA]).windows,
        w.zIndex < (run [Op.openW specA]).topZIndex + 1) ∧
     (∀ w ∈ (applyOp (Op.focusW "a") (run [Op.openW specA])).windows,
        opTargetId (Op.focusW "a") = some w.id →
          w.zIndex = (run [Op.openW specA]).topZIndex + 1)) :=
  ⟨rfl, c2_fronting_fresh_zindex [Op.openW specA] (Op.closeW "a") (Op.focusW "a") rfl⟩

/-- C5: closing the window with `spec.id` and re-opening with `spec`
yields, at `spec.id`, exactly the window a fresh open would create —
`freshWindow spec` at the respective next z-index value — whose
title, icon, geometry and flags all come from `spec`, with no leakage
of the prior window's fields, and which is focused. -/
theorem c5_close_then_open_is_fresh (spec : WindowSpec) (s s' : ManagerState)
    (_hhas : ∃ w ∈ s.windows, w.id = spec.id)
    (h' : ∀ w ∈ s'.windows, w.id ≠ spec.id) :
    (openWindow spec (closeWindow spec.id s)).windows.find?
        (fun w => w.id == spec.id) =
      some (freshWindow spec (s.topZIndex + 1)) ∧
    (openWindow spec s').windows.find? (fun w => w.id == spec.id) =
      some (freshWindow spec (s'.topZIndex + 1)) ∧
    (∀ z : Nat,
      (freshWindow spec z).title = spec.title ∧
      (freshWindow spec z).icon = spec.icon ∧
      (freshWindow spec z).x = spec.x ∧
      (freshWindow spec z).y = spec.y ∧
      (freshWindow spec z).width = spec.width ∧
      (freshWindow spec z).height = spec.height ∧
      (freshWindow spec z).isMinimized = spec.isMinimized ∧
      (freshWindow spec z).isMaximized = spec.isMaximized ∧
      (freshWindow spec z).isFocused = true) := by
  have key : ∀ t : ManagerState, (∀ w ∈ t.windows, w.id ≠ spec.id) →
      (openWindow spec t).windows.find? (fun w => w.id == spec.id) =
        some (freshWindow spec (t.topZIndex + 1)) := by
    intro t ht
    rw [open_on_absent spec t (fun w hw => beq_eq_false_iff_ne.mpr (ht w hw))]
    rw [find?_append_left_none _ _ _ (fun w hw => ?_)]
    · simp [List.find?, freshWindow]
    · obtain ⟨w0, hw0, rfl⟩ := List.mem_map.mp hw
      exact beq_eq_false_iff_ne.mpr (ht w0 hw0)
  refine ⟨?_, key s' h', fun z => ⟨rfl, rfl, rfl, rfl, rfl, rfl, rfl, rfl, rfl⟩⟩
  have habs : ∀ w ∈ (closeWindow spec.id s).windows, w.id ≠ spec.id := by
    intro w hw
    have := (List.mem_filter.mp hw).2
    simpa [bne_iff_ne] using this
  exact key (closeWindow spec.id s) habs

/-- C5 witness at a concrete input. -/
theorem c5_close_then_open_is_fresh_witness :
    (∃ w ∈ (run [Op.openW specA]).windows, w.id = specA.id) ∧
    (∀ w ∈ initialState.windows, w.id ≠ specA.id) ∧
    ((openWindow specA (closeWindow specA.id (run [Op.openW specA]))).windows.find?
        (fun w => w.id == specA.id) =
      some (freshWindow specA ((run [Op.openW specA]).topZIndex + 1)) ∧
     (openWindow specA initialState).windows.find? (fun w => w.id == specA.id) =
      some (freshWindow specA (initialState.topZIndex + 1)) ∧
     (∀ z : Nat,
      (freshWindow specA z).title = specA.title ∧
      (freshWindow specA z).icon = specA.icon ∧
      (freshWindow specA z).x = specA.x ∧
      (freshWindow specA z).y = specA.y ∧
      (freshWindow specA z).width = specA.width ∧
      (freshWindow specA z).height = specA.height ∧
      (freshWindow specA z).isMinimized = specA.isMinimized ∧
      (freshWindow specA z).isMaximized = specA.isMaximized ∧
      (freshWindow specA z).isFocused = true)) :=
  ⟨by decide, by decide,
   c5_close_then_open_is_fresh specA (run [Op.openW specA]) initialState
     (by decide) (by decide)⟩

/-- C6: opening a spec whose id already names a non-minimized window
re-focuses that window with z-index `topZIndex + 1` and unfocuses all
others, leaving every other field of the existing window (title, icon,
x, y, width, height, isMaximized) unchanged — not replaced by `spec`. -/
theorem c6_open_existing_refocuses (spec : WindowSpec) (s : ManagerState)
    (hex : ∃ w ∈ s.windows, w.id = spec.id)
    (hnm : ∀ w ∈ s.windows, w.id = spec.id → w.isMinimized = false) :
    (openWindow spec s).windows = s.windows.map (fun w =>
      if w.id == spec.id then { w with isFocused := true, zIndex := s.topZIndex + 1 }
      else { w with isFocused := false }) ∧
    (openWindow spec s).topZIndex = s.topZIndex + 1 := by
  refine ⟨?_, rfl⟩
  unfold openWindow
  cases hf : s.windows.find? (fun w => w.id == spec.id) with
  | none =>
    exfalso
    obtain ⟨w, hw, hid⟩ := hex
    exact (List.find?_eq_none.mp hf w hw) (beq_iff_eq.mpr hid)
  | some existing =>
    have hmem := List.mem_of_find?_eq_some hf
    have hpe := List.find?_some hf
    have hm : existing.isMinimized = false := hnm existing hmem (beq_iff_eq.mp hpe)
    simp only [hf, hm, Bool.false_eq_true, if_false]

/-- C6 witness at a concrete input. -/
theorem c6_open_existing_refocuses_witness :
    (∃ w ∈ (run [Op.openW specA]).windows, w.id = specA2.id) ∧
    (∀ w ∈ (run [Op.openW specA]).windows, w.id = specA2.id → w.isMinimized = false) ∧
    ((openWindow specA2 (run [Op.openW specA])).windows =
      (run [Op.openW specA]).windows.map (fun w =>
        if w.id == specA2.id then
          { w with isFocused := true, zIndex := (run [Op.openW specA]).topZIndex + 1 }
        else { w with isFocused := false }) ∧
     (openWindow specA2 (run [Op.openW specA])).topZIndex =
      (run [Op.openW specA]).topZIndex + 1) :=
  ⟨by decide, by decide,
   c6_open_existing_refocuses specA2 (run [Op.openW specA]) (by decide) (by decide)⟩

/-- C7: opening a spec whose id names a minimized window clears its
minimized flag, focuses it with z-index `topZIndex + 1`, unfocuses all
others, and does not alter its title, icon, x or y (nor any other
stored field). -/
theorem c7_open_minimized_restores (spec : WindowSpec) (s : ManagerState)
    (hex : ∃ w ∈ s.windows, w.id = spec.id)
    (hm : ∀ w ∈ s.windows, w.id = spec.id → w.isMinimized = true) :
    (openWindow spec s).windows = s.windows.map (fun w =>
      if w.id == spec.id then
        { w with isMinimized := false, isFocused := true, zIndex := s.topZIndex + 1 }
      else { w with isFocused := false }) ∧
    (openWindow spec s).topZIndex = s.topZIndex + 1 := by
  refine ⟨?_, rfl⟩
  unfold openWindow
  cases hf : s.windows.find? (fun w => w.id == spec.id) with
  | none =>
    exfalso
    obtain ⟨w, hw, hid⟩ := hex
    exact (List.find?_eq_none.mp hf w hw) (beq_iff_eq.mpr hid)
  | some existing =>
    have hmem := List.mem_of_find?_eq_some hf
    have hpe := List.find?_some hf
    have hmin : existing.isMinimized = true := hm existing hmem (beq_iff_eq.mp hpe)
    simp only [hf, hmin, if_true]

/-- C7 witness at a concrete input. -/
theorem c7_open_minimized_restores_witness :
    (∃ w ∈ (run [Op.openW specA, Op.minimizeW "a"]).windows, w.id = specA2.id) ∧
    (∀ w ∈ (run [Op.openW specA, Op.minimizeW "a"]).windows,
      w.id = specA2.id → w.isMinimized = true) ∧
    ((openWindow specA2 (run [Op.openW specA, Op.minimizeW "a"])).windows =
      (run [Op.openW specA, Op.minimizeW "a"]).windows.map (fun w =>
        if w.id == specA2.id then
          { w with isMinimized := false, isFocused := true,
                   zIndex := (run [Op.openW specA, Op.minimizeW "a"]).topZIndex + 1 }
        else { w with isFocused := false }) ∧
     (openWindow specA2 (run [Op.openW specA, Op.minimizeW "a"])).topZIndex =
      (run [Op.openW specA, Op.minimizeW "a"]).topZIndex + 1) :=
  ⟨by decide, by decide,
   c7_open_minimized_restores specA2 (run [Op.openW specA, Op.minimizeW "a"])
     (by decide) (by decide)⟩

/-- C8: `maximizeWindow(id)` negates `isMaximized` on the window with
matching id and changes no other field of that window (in particular
`zIndex` and `isFocused`) and no other window; `topZIndex` is untouched,
and with no matching window the whole state is unchanged. -/
theorem c8_maximize_toggles_only (id : String) (s : ManagerState) :
    List.Forall₂ (fun w w' : WindowState =>
        (w.id = id → w' = { w with isMaximized := !w.isMaximized }) ∧
        (w.id ≠ id → w' = w))
      s.windows (maximizeWindow id s).windows ∧
    (maximizeWindow id s).topZIndex = s.topZIndex ∧
    ((∀ w ∈ s.windows, w.id ≠ id) → maximizeWindow id s = s) := by
  refine ⟨?_, rfl, ?_⟩
  · exact mapIf_forall2 id (fun w => { w with isMaximized := !w.isMaximized }) s.windows
  · intro h
    exact state_eq_of_windows_eq s _
      (mapIf_noop id (fun w => { w with isMaximized := !w.isMaximized }) s.windows h)

/-- C8 witness at a concrete input. -/
theorem c8_maximize_toggles_only_witness :
    List.Forall₂ (fun w w' : WindowState =>
        (w.id = "a" → w' = { w with isMaximized := !w.isMaximized }) ∧
        (w.id ≠ "a" → w' = w))
      (run [Op.openW specA, Op.openW specB]).windows
      (maximizeWindow "a" (run [Op.openW specA, Op.openW specB])).windows ∧
    (maximizeWindow "a" (run [Op.openW specA, Op.openW specB])).topZIndex =
      (run [Op.openW specA, Op.openW specB]).topZIndex ∧
    ((∀ w ∈ (run [Op.openW specA, Op.openW specB]).windows, w.id ≠ "a") →
      maximizeWindow "a" (run [Op.openW specA, Op.openW specB]) =
        run [Op.openW specA, Op.openW specB]) :=
  c8_maximize_toggles_only "a" (run [Op.openW specA, Op.openW specB])

/-- C9: `updateWindowPosition(id, x, y)` overwrites only `x` and `y` on
the window with matching id and `updateWindowSize(id, width, height)`
only `width` and `height`; neither changes `zIndex`, `isFocused`, any
other field, any other window, or `topZIndex`, and both are no-ops when
the id is absent. -/
theorem c9_update_frame (id : String) (x y wdt hgt : Int) (s : ManagerState) :
    List.Forall₂ (fun w w' : WindowState =>
        (w.id = id → w' = { w with x := x, y := y }) ∧ (w.id ≠ id → w' = w))
      s.windows (updateWindowPosition id x y s).windows ∧
    (updateWindowPosition id x y s).topZIndex = s.topZIndex ∧
    List.Forall₂ (fun w w' : WindowState =>
        (w.id = id → w' = { w with width := wdt, height := hgt }) ∧
        (w.id ≠ id → w' = w))
      s.windows (updateWindowSize id wdt hgt s).windows ∧
    (updateWindowSize id wdt hgt s).topZIndex = s.topZIndex ∧
    ((∀ w ∈ s.windows, w.id ≠ id) →
      updateWindowPosition id x y s = s ∧ updateWindowSize id wdt hgt s = s) := by
  refine ⟨?_, rfl, ?_, rfl, ?_⟩
  · exact mapIf_forall2 id (fun w => { w with x := x, y := y }) s.windows
  · exact mapIf_forall2 id (fun w => { w with width := wdt, height := hgt }) s.windows
  · intro h
    constructor
    · exact state_eq_of_windows_eq s _
        (mapIf_noop id (fun w => { w with x := x, y := y }) s.windows h)
    · exact state_eq_of_windows_eq s _
        (mapIf_noop id (fun w => { w with width := wdt, height := hgt }) s.windows h)

/-- C9 witness at a concrete input. -/
theorem c9_update_frame_witness :
    List.Forall₂ (fun w w' : WindowState =>
        (w.id = "a" → w' = { w with x := (5 : Int), y := (6 : Int) }) ∧
        (w.id ≠ "a" → w' = w))
      (run [Op.openW specA, Op.openW specB]).windows
      (updateWindowPosition "a" 5 6 (run [Op.openW specA, Op.openW specB])).windows ∧
    (updateWindowPosition "a" 5 6 (run [Op.openW specA, Op.openW specB])).topZIndex =
      (run [Op.openW specA, Op.openW specB]).topZIndex ∧
    List.Forall₂ (fun w w' : WindowState =>
        (w.id = "a" → w' = { w with width := (70 : Int), height := (80 : Int) }) ∧
        (w.id ≠ "a" → w' = w))
      (run [Op.openW specA, Op.openW specB]).windows
      (updateWindowSize "a" 70 80 (run [Op.openW specA, Op.openW specB])).windows ∧
    (updateWindowSize "a" 70 80 (run [Op.openW specA, Op.openW specB])).topZIndex =
      (run [Op.openW specA, Op.openW specB]).topZIndex ∧
    ((∀ w ∈ (run [Op.openW specA, Op.openW specB]).windows, w.id ≠ "a") →
      updateWindowPosition "a" 5 6 (run [Op.openW specA, Op.openW specB]) =
        run [Op.openW specA, Op.openW specB] ∧
      updateWindowSize "a" 70 80 (run [Op.openW specA, Op.openW specB]) =
        run [Op.openW specA, Op.openW specB]) :=
  c9_update_frame "a" 5 6 70 80 (run [Op.openW specA, Op.openW specB])
